import Mathlib

/-!
Verification of the passport-zalo OAuth 2.0 strategy (lib/strategy.js,
lib/profile.js, lib/errors/apierror.js) against its natural-language
specification.

The development shallowly embeds the JavaScript code: JavaScript runtime
values are modelled by `JVal`, the builtin `JSON.parse` by `jsonParse`
(strict JSON grammar; surrogate-pair recombination of `\uXXXX` escapes is
out of scope), thrown exceptions by the `Except JsErr` monad, and the
callback-style results of the strategy by explicit result types.  The
Node `url.parse`/`url.format` pair is modelled for URLs without fragment
components (the strategy's profile URLs carry none); percent-encoding is
out of scope.
-/

/-- A left/right brace character, kept as named constants. -/
def lbrace : Char := Char.ofNat 123

/-- Closing brace character. -/
def rbrace : Char := Char.ofNat 125

/-- Double-quote character. -/
def quoteChar : Char := Char.ofNat 34

/-- Model of a JavaScript runtime value as manipulated by the code under
analysis.  `undef` models `undefined`; `nan` models `NaN` (producible here
only by `parseIntJs`).  A number is kept as a decimal mantissa together
with a power-of-ten exponent; the code under analysis never performs
arithmetic or numeric comparison on numbers, only truthiness tests, for
which this representation is exact. -/
inductive JVal where
  | undef : JVal
  | null : JVal
  | bool : Bool → JVal
  | num : Int → Int → JVal
  | nan : JVal
  | str : String → JVal
  | arr : List JVal → JVal
  | obj : List (String × JVal) → JVal

/-- JavaScript truthiness of a value. -/
def JVal.truthy : JVal → Bool
  | .undef => false
  | .null => false
  | .bool b => b
  | .num m _ => m != 0
  | .nan => false
  | .str s => s != ""
  | .arr _ => true
  | .obj _ => true

/-- Whether `typeof v == 'object'` holds in JavaScript (true for `null`,
arrays and plain objects). -/
def JVal.isTypeofObject : JVal → Bool
  | .null => true
  | .arr _ => true
  | .obj _ => true
  | _ => false

/-- Whether the value is a string (`typeof v == 'string'`). -/
def JVal.isStr : JVal → Bool
  | .str _ => true
  | _ => false

/-- Whether property access on the value throws a TypeError
(`undefined` and `null`). -/
def JVal.isNullish : JVal → Bool
  | .undef => true
  | .null => true
  | _ => false

/-- Last-wins association lookup, matching the semantics of JavaScript
objects built from JSON text (a duplicated key keeps the last value). -/
def assocLast : List (String × JVal) → String → Option JVal
  | [], _ => none
  | (k, v) :: rest, key =>
    match assocLast rest key with
    | some w => some w
    | none => if k = key then some v else none

/-- Own-property lookup: `none` when the property is absent (or the value
is not an object), `some` when present — the JavaScript `in`/own-key view. -/
def JVal.getOwn : JVal → String → Option JVal
  | .obj kvs, k => assocLast kvs k
  | _, _ => none

/-- Property read as an expression value: missing properties and reads on
non-object primitives give `undefined`.  Reads on `undefined`/`null`
(which throw in JavaScript) are the business of `JVal.member`; this total
variant is used in specification-side statements where the read is known
to be legal. -/
def JVal.getMemberD : JVal → String → JVal
  | .obj kvs, k => (assocLast kvs k).getD JVal.undef
  | _, _ => JVal.undef

/-- Exceptions thrown by the modelled JavaScript builtins. -/
inductive JsErr where
  | typeErr : JsErr
  | parseFail : JsErr
  deriving DecidableEq

/-- Property read `v[k]` with JavaScript exception behaviour: throws a
TypeError on `undefined` and `null`. -/
def JVal.member : JVal → String → Except JsErr JVal
  | .undef, _ => .error .typeErr
  | .null, _ => .error .typeErr
  | v, k => .ok (v.getMemberD k)

/-- Property assignment on an object: replaces an existing key in place,
otherwise appends.  On non-objects it is the identity (the code under
analysis only assigns to objects). -/
def JVal.setOwn (j : JVal) (k : String) (v : JVal) : JVal :=
  match j with
  | .obj kvs =>
    if kvs.any (fun p => p.1 = k) then
      .obj (kvs.map (fun p => if p.1 = k then (k, v) else p))
    else
      .obj (kvs ++ [(k, v)])
  | other => other

/-- Own keys of an object, in insertion order. -/
def JVal.ownKeys : JVal → List String
  | .obj kvs => kvs.map Prod.fst
  | _ => []

/-! ### JSON parsing (model of the JavaScript builtin `JSON.parse`) -/

/-- JSON whitespace. -/
def jsonWs (c : Char) : Bool :=
  c == ' ' || c == Char.ofNat 9 || c == Char.ofNat 10 || c == Char.ofNat 13

/-- Drop leading JSON whitespace. -/
def skipWs : List Char → List Char
  | [] => []
  | c :: cs => if jsonWs c then skipWs cs else c :: cs

/-- Numeric value of a decimal digit string. -/
def digitsToNat (ds : List Char) : Nat :=
  ds.foldl (fun a c => a * 10 + (c.toNat - 48)) 0

/-- Value of a hexadecimal digit character. -/
def hexVal (c : Char) : Option Nat :=
  if c.isDigit then some (c.toNat - 48)
  else if 97 ≤ c.toNat ∧ c.toNat ≤ 102 then some (c.toNat - 87)
  else if 65 ≤ c.toNat ∧ c.toNat ≤ 70 then some (c.toNat - 55)
  else none

/-- Parse the remainder of a JSON string literal (the opening quote is
already consumed), accumulating characters in reverse. -/
def parseStrAux : Nat → List Char → List Char → Except JsErr (String × List Char)
  | 0, _, _ => .error .parseFail
  | _ + 1, [], _ => .error .parseFail
  | n + 1, c :: cs, acc =>
    if c = quoteChar then .ok (String.mk acc.reverse, cs)
    else if c = '\\' then
      match cs with
      | [] => .error .parseFail
      | e :: cs2 =>
        if e = quoteChar ∨ e = '\\' ∨ e = '/' then parseStrAux n cs2 (e :: acc)
        else if e = 'b' then parseStrAux n cs2 (Char.ofNat 8 :: acc)
        else if e = 'f' then parseStrAux n cs2 (Char.ofNat 12 :: acc)
        else if e = 'n' then parseStrAux n cs2 (Char.ofNat 10 :: acc)
        else if e = 'r' then parseStrAux n cs2 (Char.ofNat 13 :: acc)
        else if e = 't' then parseStrAux n cs2 (Char.ofNat 9 :: acc)
        else if e = 'u' then
          match cs2 with
          | h1 :: h2 :: h3 :: h4 :: cs3 =>
            match hexVal h1, hexVal h2, hexVal h3, hexVal h4 with
            | some a, some b, some c3, some d =>
              parseStrAux n cs3 (Char.ofNat (((a * 16 + b) * 16 + c3) * 16 + d) :: acc)
            | _, _, _, _ => .error .parseFail
          | _ => .error .parseFail
        else .error .parseFail
    else if c.toNat < 32 then .error .parseFail
    else parseStrAux n cs (c :: acc)

/-- Parse the integer part of a JSON number (strict grammar: a leading
zero may not be followed by further digits). -/
def parseIntPart : List Char → Option (Nat × List Char)
  | [] => none
  | c :: cs =>
    if c = '0' then some (0, cs)
    else if c.isDigit then
      let ds := List.takeWhile Char.isDigit (c :: cs)
      some (digitsToNat ds, List.dropWhile Char.isDigit (c :: cs))
    else none

/-- Parse an optional fraction part, returning its digits' value and count. -/
def parseFrac : List Char → Except JsErr (Nat × Nat × List Char)
  | '.' :: r =>
    let ds := List.takeWhile Char.isDigit r
    if ds.isEmpty then .error .parseFail
    else .ok (digitsToNat ds, ds.length, List.dropWhile Char.isDigit r)
  | cs => .ok (0, 0, cs)

/-- Parse an optional exponent part. -/
def parseExpPart : List Char → Except JsErr (Int × List Char)
  | [] => .ok (0, [])
  | c :: r =>
    if c = 'e' ∨ c = 'E' then
      let (esign, r2) : Int × List Char :=
        match r with
        | '+' :: t => (1, t)
        | '-' :: t => (-1, t)
        | t => (1, t)
      let ds := List.takeWhile Char.isDigit r2
      if ds.isEmpty then .error .parseFail
      else .ok (esign * (digitsToNat ds : Int), List.dropWhile Char.isDigit r2)
    else .ok (0, c :: r)

/-- Parse a JSON number. -/
def parseNumAux (cs : List Char) : Except JsErr (JVal × List Char) :=
  let (sign, cs1) : Int × List Char :=
    match cs with
    | '-' :: r => (-1, r)
    | r => (1, r)
  match parseIntPart cs1 with
  | none => .error .parseFail
  | some (ip, cs2) =>
    match parseFrac cs2 with
    | .error e => .error e
    | .ok (fv, fk, cs3) =>
      match parseExpPart cs3 with
      | .error e => .error e
      | .ok (ev, cs4) =>
        .ok (JVal.num (sign * ((ip : Int) * (10 : Int) ^ fk + (fv : Int))) (ev - (fk : Int)), cs4)

mutual

/-- Parse a JSON value, fuelled. -/
def parseVal : Nat → List Char → Except JsErr (JVal × List Char)
  | 0, _ => .error .parseFail
  | n + 1, cs =>
    match skipWs cs with
    | [] => .error .parseFail
    | c :: rest =>
      if c = lbrace then
        match skipWs rest with
        | c2 :: rest2 =>
          if c2 = rbrace then .ok (JVal.obj [], rest2)
          else parseMembers n (c2 :: rest2) []
        | [] => .error .parseFail
      else if c = '[' then
        match skipWs rest with
        | c2 :: rest2 =>
          if c2 = ']' then .ok (JVal.arr [], rest2)
          else parseElems n (c2 :: rest2) []
        | [] => .error .parseFail
      else if c = quoteChar then
        match parseStrAux (rest.length + 1) rest [] with
        | .ok (s, r) => .ok (JVal.str s, r)
        | .error e => .error e
      else if c = 't' then
        match rest with
        | 'r' :: 'u' :: 'e' :: r => .ok (JVal.bool true, r)
        | _ => .error .parseFail
      else if c = 'f' then
        match rest with
        | 'a' :: 'l' :: 's' :: 'e' :: r => .ok (JVal.bool false, r)
        | _ => .error .parseFail
      else if c = 'n' then
        match rest with
        | 'u' :: 'l' :: 'l' :: r => .ok (JVal.null, r)
        | _ => .error .parseFail
      else parseNumAux (c :: rest)

/-- Parse the members of a JSON object (after the opening brace, first
non-whitespace already known not to be a closing brace). -/
def parseMembers : Nat → List Char → List (String × JVal) → Except JsErr (JVal × List Char)
  | 0, _, _ => .error .parseFail
  | n + 1, cs, acc =>
    match skipWs cs with
    | c :: rest =>
      if c = quoteChar then
        match parseStrAux (rest.length + 1) rest [] with
        | .error e => .error e
        | .ok (k, r1) =>
          match skipWs r1 with
          | ':' :: r2 =>
            match parseVal n r2 with
            | .error e => .error e
            | .ok (v, r3) =>
              match skipWs r3 with
              | ',' :: r4 => parseMembers n r4 (acc ++ [(k, v)])
              | c4 :: r4 =>
                if c4 = rbrace then .ok (JVal.obj (acc ++ [(k, v)]), r4)
                else .error .parseFail
              | [] => .error .parseFail
          | _ => .error .parseFail
      else .error .parseFail
    | [] => .error .parseFail

/-- Parse the elements of a JSON array (after the opening bracket, first
non-whitespace already known not to be a closing bracket). -/
def parseElems : Nat → List Char → List JVal → Except JsErr (JVal × List Char)
  | 0, _, _ => .error .parseFail
  | n + 1, cs, acc =>
    match parseVal n cs with
    | .error e => .error e
    | .ok (v, r1) =>
      match skipWs r1 with
      | ',' :: r2 => parseElems n r2 (acc ++ [v])
      | ']' :: r2 => .ok (JVal.arr (acc ++ [v]), r2)
      | _ => .error .parseFail

end

/-- Model of the JavaScript builtin `JSON.parse`: an `Except JsErr` error
models a thrown SyntaxError. -/
def jsonParse (s : String) : Except JsErr JVal :=
  match parseVal (2 * s.length + 4) s.toList with
  | .error e => .error e
  | .ok (v, rest) => if skipWs rest = [] then .ok v else .error .parseFail

/-- Model of the JavaScript builtin `parseInt(s, 10)`: leading whitespace
is skipped, an optional sign and a maximal run of decimal digits are
consumed; without any digit the result is `NaN`. -/
def parseIntJs (s : String) : JVal :=
  let cs := s.toList.dropWhile Char.isWhitespace
  let (sign, cs1) : Int × List Char :=
    match cs with
    | '-' :: r => (-1, r)
    | '+' :: r => (1, r)
    | r => (1, r)
  let ds := cs1.takeWhile Char.isDigit
  if ds.isEmpty then JVal.nan else JVal.num (sign * (digitsToNat ds : Int)) 0

example : jsonParse "190" = Except.ok (JVal.num 190 0) := rfl
example : jsonParse "null" = Except.ok JVal.null := rfl
example : jsonParse "not json" = Except.error JsErr.parseFail := rfl
example :
    jsonParse "\x7b\"error\":\x7b\"message\":\"Invalid token\",\"code\":190\x7d\x7d" =
      Except.ok (JVal.obj [("error",
        JVal.obj [("message", JVal.str "Invalid token"), ("code", JVal.num 190 0)])]) := rfl
example : parseIntJs "190" = JVal.num 190 0 := rfl

/-! ### ZaloAPIError (lib/errors/apierror.js) -/

/-- Embedding of the `ZaloAPIError` object: message and code are whatever
values the constructor received, the name is the fixed tag and the status
is the fixed internal value 500. -/
structure ZaloAPIError where
  message : JVal
  code : JVal
  errName : String
  status : Int

/-- The `ZaloAPIError(message, code)` constructor. -/
def ZaloAPIError.mk' (message code : JVal) : ZaloAPIError :=
  ⟨message, code, "ZaloAPIError", 500⟩

/-! ### Profile normalizer (lib/profile.js) -/

/-- Embedding of the body of `exports.parse` after the string case has
been decoded: the sequence of property assignments building the
normalized profile.  A thrown TypeError (property access on a nullish
input) surfaces as an `Except.error`. -/
def profileParseCore (json : JVal) : Except JsErr JVal := do
  let idv ← json.member "id"
  let namev ← json.member "name"
  let bdv ← json.member "birthday"
  let gv ← json.member "gender"
  let pic ← json.member "picture"
  let base := [("id", idv), ("displayName", namev), ("birthday", bdv), ("gender", gv)]
  if pic.truthy then
    if pic.isTypeofObject then do
      let d ← pic.member "data"
      if d.truthy then do
        let u ← d.member "url"
        pure (JVal.obj (base ++ [("photos", JVal.arr [JVal.obj [("value", u)]])]))
      else
        pure (JVal.obj (base ++ [("photos", JVal.arr [JVal.obj [("value", pic)]])]))
    else
      pure (JVal.obj (base ++ [("photos", JVal.arr [JVal.obj [("value", pic)]])]))
  else
    pure (JVal.obj base)

/-- Embedding of `exports.parse` from lib/profile.js: a string input is
first decoded with `JSON.parse` (whose SyntaxError propagates uncaught),
then the assignment sequence of `profileParseCore` runs. -/
def Profile.parse (json0 : JVal) : Except JsErr JVal :=
  match json0 with
  | .str s =>
    match jsonParse s with
    | .ok v => profileParseCore v
    | .error e => .error e
  | v => profileParseCore v

example :
    Profile.parse (JVal.obj [("id", JVal.str "7"), ("name", JVal.str "An")]) =
      Except.ok (JVal.obj [("id", JVal.str "7"), ("displayName", JVal.str "An"),
        ("birthday", JVal.undef), ("gender", JVal.undef)]) := rfl
example :
    Profile.parse (JVal.obj [("picture", JVal.obj [("data",
        JVal.obj [("url", JVal.str "u")])])]) =
      Except.ok (JVal.obj [("id", JVal.undef), ("displayName", JVal.undef),
        ("birthday", JVal.undef), ("gender", JVal.undef),
        ("photos", JVal.arr [JVal.obj [("value", JVal.str "u")]])]) := rfl
example : Profile.parse JVal.null = Except.error JsErr.typeErr := rfl

/-! ### Strategy configuration (lib/strategy.js constructor) -/

/-- The subset of the construction options that the operations under
verification read.  `profileFields = none` models both an absent option
and an explicit `null` (`options.profileFields || null` in the source
conflates them, an array — even an empty one — being truthy). -/
structure StrategyOptions where
  profileURL : Option String
  profileFields : Option (List String)
  enableProof : Bool
  clientSecret : String

/-- The `_profileURL` field set by the constructor:
`options.profileURL || 'https://graph.zalo.me/v2.0/me'` (an empty string
is falsy and also falls back to the default). -/
def Strategy.profileURL (o : StrategyOptions) : String :=
  match o.profileURL with
  | some u => if u = "" then "https://graph.zalo.me/v2.0/me" else u
  | none => "https://graph.zalo.me/v2.0/me"

/-- The strategy's `name` field, set to `'zalo'` by the constructor. -/
def Strategy.strategyName : String := "zalo"

/-! ### Field-list translation (Strategy.prototype._convertProfileFields) -/

/-- The fixed translation table (the object literal `map` in the source).
`none` models an absent key (`typeof map[f] === 'undefined'`). -/
def fieldMap (f : String) : Option String :=
  if f = "id" then some "id"
  else if f = "displayName" then some "name"
  else if f = "gender" then some "gender"
  else if f = "birthday" then some "birthday"
  else if f = "photos" then some "picture"
  else none

/-- Translation of one requested field name: unmapped names pass through
raw. -/
def translateField (f : String) : String :=
  match fieldMap f with
  | none => f
  | some v => v

/-- Embedding of `Strategy.prototype._convertProfileFields`: the
`forEach`/`push` loop followed by `join(',')`.  The `Array.isArray(map[f])`
branch of the source is unreachable because every value of the table is a
single string. -/
def Strategy.convertProfileFields (profileFields : List String) : String :=
  let fields := profileFields.foldl (fun fields f =>
    match fieldMap f with
    | none => fields ++ [f]
    | some v => fields ++ [v]) []
  String.intercalate "," fields

example : Strategy.convertProfileFields ["id", "displayName", "unknownField"] =
    "id,name,unknownField" := rfl
example : Strategy.convertProfileFields [] = "" := rfl
example : Strategy.convertProfileFields [""] = "" := rfl

/-! ### URL construction (Node `url.parse` / `url.format`, restricted to
fragment-free URLs, and the search-string manipulation in
`Strategy.prototype.userProfile`) -/

/-- The fields of a legacy Node parsed-URL object that the strategy
touches: everything before the first question mark (kept opaque), the
`search` component (question mark included, `none` for JavaScript `null`)
and the derived `query` component (question mark stripped). -/
structure UrlObj where
  base : String
  search : Option String
  query : Option String

/-- Split a character list at the first question mark. -/
def splitAtQn : List Char → Option (List Char × List Char)
  | [] => none
  | c :: cs =>
    if c = '?' then some ([], cs)
    else
      match splitAtQn cs with
      | some (a, b) => some (c :: a, b)
      | none => none

/-- Model of `url.parse` on a fragment-free URL. -/
def uriParse (u : String) : UrlObj :=
  match splitAtQn u.toList with
  | some (a, b) => ⟨String.mk a, some (String.mk ('?' :: b)), some (String.mk b)⟩
  | none => ⟨u, none, none⟩

/-- JavaScript truthiness of a string-or-null field. -/
def strTruthy : Option String → Bool
  | some s => s != ""
  | none => false

/-- Whether the first character of a string is a question mark
(`search.charAt(0) === '?'` in the Node source). -/
def firstIsQn (s : String) : Bool :=
  match s.toList with
  | '?' :: _ => true
  | _ => false

/-- Model of `url.format` on a fragment-free URL object: a truthy `search`
wins over `query`; a search string not starting with a question mark gets
one prepended. -/
def uriFormat (o : UrlObj) : String :=
  let searchEff : Option String := if strTruthy o.search then o.search else o.query
  match searchEff with
  | some s =>
    if s != "" then o.base ++ (if firstIsQn s then s else "?" ++ s) else o.base
  | none => o.base

example : uriFormat (uriParse "https://graph.zalo.me/v2.0/me") =
    "https://graph.zalo.me/v2.0/me" := rfl
example : uriFormat (uriParse "https://h/p?a=1") = "https://h/p?a=1" := by decide

/-! ### Strategy.prototype.userProfile: URL construction -/

/-- Embedding of the URL construction of `Strategy.prototype.userProfile`
(strategy.js lines 143-165).  The HMAC-SHA256 primitive of the external
crypto library is passed in as a function `hmacSha256Hex key message`;
mirroring the source, its result (`proof`) is bound and then never used —
the proof branch only normalizes `url.search`. -/
def userProfileUrl (hmacSha256Hex : String → String → String)
    (o : StrategyOptions) (accessToken : String) : String :=
  let url := uriParse (Strategy.profileURL o)
  let url :=
    if o.enableProof then
      let proof := hmacSha256Hex o.clientSecret accessToken
      let _ := proof
      UrlObj.mk url.base
        (some (if strTruthy url.search then url.search.getD "" ++ "&" else ""))
        url.query
    else url
  let url :=
    match o.profileFields with
    | some pf =>
      let fields := Strategy.convertProfileFields pf
      if fields != "" then
        UrlObj.mk url.base
          (some ((if strTruthy url.search then url.search.getD "" ++ "&" else "")
            ++ "fields=" ++ fields))
          url.query
      else url
    | none => url
  uriFormat url

/-- A stand-in HMAC function used in concrete statements; its output is a
marker string that a correctly appended digest would make appear in the
URL. -/
def hmacStub : String → String → String := fun _ _ => "0a1b2c3d4e5f"

example : userProfileUrl hmacStub ⟨none, none, true, "secret"⟩ "token123" =
    "https://graph.zalo.me/v2.0/me" := rfl
example : userProfileUrl hmacStub ⟨none, some ["id", "displayName"], false, "s"⟩ "t" =
    "https://graph.zalo.me/v2.0/me?fields=id,name" := by decide
example : userProfileUrl hmacStub ⟨none, some ["id"], true, "s"⟩ "t" =
    "https://graph.zalo.me/v2.0/me?fields=id" := by decide
example : userProfileUrl hmacStub ⟨some "https://h/p?a=1", some ["id"], true, "s"⟩ "t" =
    "https://h/p?a=1&&fields=id" := by decide

/-! ### Strategy.prototype.userProfile: response handling -/

/-- The transport error handed to the `_oauth2.get` callback: the strategy
only inspects its optional `data` field (the raw error body). -/
structure TransportError where
  data : Option String

/-- The error channel of the `userProfile` completion callback. -/
inductive DoneError where
  | zalo : ZaloAPIError → DoneError
  | internalOAuth : String → TransportError → DoneError
  | generic : String → DoneError

/-- The completion callback of `userProfile`: called with exactly one of a
normalized profile or an error. -/
inductive DoneResult where
  | profile : JVal → DoneResult
  | failed : DoneError → DoneResult

/-- Embedding of the transport-error branch of the `_oauth2.get` callback
in `Strategy.prototype.userProfile` (strategy.js lines 170-185): the
error body, when truthy, is parsed as JSON with the parse failure
swallowed; a structured `error` object yields a `ZaloAPIError`, anything
else the generic `InternalOAuthError` wrap. -/
def handleTransportError (err : TransportError) : Except JsErr DoneError := do
  let json : JVal :=
    match err.data with
    | some d =>
      if d != "" then
        match jsonParse d with
        | .ok v => v
        | .error _ => JVal.undef
      else JVal.undef
    | none => JVal.undef
  if json.truthy then
    let ev ← json.member "error"
    if ev.truthy && ev.isTypeofObject then
      let m ← ev.member "message"
      let c ← ev.member "code"
      pure (DoneError.zalo (ZaloAPIError.mk' m c))
    else
      pure (DoneError.internalOAuth "Failed to fetch user profile" err)
  else
    pure (DoneError.internalOAuth "Failed to fetch user profile" err)

/-- Embedding of the success branch of the `_oauth2.get` callback in
`Strategy.prototype.userProfile` (strategy.js lines 187-199): the body is
parsed as JSON (parse failure caught, yielding the generic parse error),
normalized by `Profile.parse` and tagged with the `provider` constant and
the raw body/json.  An `Except.error` models an exception escaping the
callback uncaught. -/
def handleSuccess (body : String) : Except JsErr DoneResult :=
  match jsonParse body with
  | .error _ => .ok (DoneResult.failed (DoneError.generic "Failed to parse user profile"))
  | .ok json => do
    let profile ← Profile.parse json
    let profile := profile.setOwn "provider" (JVal.str "facebook")
    let profile := profile.setOwn "_raw" (JVal.str body)
    let profile := profile.setOwn "_json" json
    pure (DoneResult.profile profile)

example : handleSuccess "not json" =
    Except.ok (DoneResult.failed (DoneError.generic "Failed to parse user profile")) := rfl
example : handleSuccess "null" = Except.error JsErr.typeErr := rfl
example : handleSuccess "\x7b\x7d" =
    Except.ok (DoneResult.profile (JVal.obj [("id", JVal.undef),
      ("displayName", JVal.undef), ("birthday", JVal.undef), ("gender", JVal.undef),
      ("provider", JVal.str "facebook"), ("_raw", JVal.str "\x7b\x7d"),
      ("_json", JVal.obj [])])) := rfl

/-! ### Strategy.prototype.parseErrorResponse -/

/-- Result of `parseErrorResponse`: either the strategy's own
`ZaloAPIError` or delegation to the underlying engine's default
behaviour on the same body and status. -/
inductive ParseErrorOutcome where
  | zalo : ZaloAPIError → ParseErrorOutcome
  | delegated : String → Int → ParseErrorOutcome

/-- Embedding of `Strategy.prototype.parseErrorResponse` (strategy.js
lines 210-217).  `JSON.parse(body)` runs outside any try/catch, so its
SyntaxError — and the TypeError of `json.error` when the body parses to
`null` — propagate as `Except.error`. -/
def Strategy.parseErrorResponse (body : String) (status : Int) :
    Except JsErr ParseErrorOutcome :=
  match jsonParse body with
  | .error e => .error e
  | .ok json => do
    let ev ← json.member "error"
    if ev.truthy && ev.isTypeofObject then
      let m ← ev.member "message"
      let c ← ev.member "code"
      pure (ParseErrorOutcome.zalo (ZaloAPIError.mk' m c))
    else
      pure (ParseErrorOutcome.delegated body status)

example :
    Strategy.parseErrorResponse
        "\x7b\"error\":\x7b\"message\":\"Invalid token\",\"code\":190\x7d\x7d" 400 =
      Except.ok (ParseErrorOutcome.zalo
        (ZaloAPIError.mk' (JVal.str "Invalid token") (JVal.num 190 0))) := rfl
example : Strategy.parseErrorResponse "not json" 400 =
    Except.error JsErr.parseFail := rfl

/-! ### Strategy.prototype.authenticate -/

/-- The slice of the incoming request that `authenticate` inspects: the
parsed query, a string-valued key/value list (`none` models an absent
`req.query`). -/
structure Req where
  query : Option (List (String × String))

/-- First-match lookup in a parsed query object. -/
def qget : List (String × String) → String → Option String
  | [], _ => none
  | (k, v) :: rest, key => if k = key then some v else qget rest key

/-- A query parameter as a JavaScript value: absent parameters read as
`undefined`. -/
def jvalOfQ : Option String → JVal
  | some s => JVal.str s
  | none => JVal.undef

/-- Outcome of `Strategy.prototype.authenticate`: either the error path
with a `ZaloAPIError` (via `this.error`), or full delegation to
`OAuth2Strategy.prototype.authenticate`. -/
inductive AuthOutcome where
  | errored : ZaloAPIError → AuthOutcome
  | delegated : AuthOutcome

/-- Embedding of `Strategy.prototype.authenticate` (strategy.js lines
75-90): a truthy `error_code` query parameter together with a falsy
`error` parameter short-circuits with a `ZaloAPIError` built from
`error_message` and `parseInt(error_code, 10)`; every other request is
delegated to the underlying engine. -/
def Strategy.authenticate (req : Req) : AuthOutcome :=
  match req.query with
  | some q =>
    if strTruthy (qget q "error_code") && !(strTruthy (qget q "error")) then
      AuthOutcome.errored (ZaloAPIError.mk'
        (jvalOfQ (qget q "error_message"))
        (parseIntJs ((qget q "error_code").getD "")))
    else AuthOutcome.delegated
  | none => AuthOutcome.delegated

example : Strategy.authenticate ⟨some [("error_code", "190")]⟩ =
    AuthOutcome.errored (ZaloAPIError.mk' JVal.undef (JVal.num 190 0)) := rfl
example : Strategy.authenticate ⟨some [("error_code", "")]⟩ =
    AuthOutcome.delegated := rfl
example : Strategy.authenticate ⟨some [("error_code", "190"), ("error", "")]⟩ =
    AuthOutcome.errored (ZaloAPIError.mk' JVal.undef (JVal.num 190 0)) := rfl
example : Strategy.authenticate ⟨none⟩ = AuthOutcome.delegated := rfl

/-! ### Specification-side characterizations

These definitions restate, in the shape of the (amended) specification
sentences, what the embedded code is claimed to compute; the claim
theorems relate them to the embedded definitions above. -/

/-- The photo attribute of the normalized profile, as characterized by the
amended photo rule: a truthy `picture` that is `typeof 'object'` with a
truthy `data` member contributes `[{value: picture.data.url}]` (the `url`
read may yield `undefined`); any other truthy `picture` contributes
`[{value: picture}]`; a falsy or absent `picture` contributes nothing. -/
def photosSpec (json : JVal) : Option JVal :=
  let pic := json.getMemberD "picture"
  if pic.truthy then
    some (if pic.isTypeofObject then
      (if (pic.getMemberD "data").truthy then
        JVal.arr [JVal.obj [("value", (pic.getMemberD "data").getMemberD "url")]]
      else JVal.arr [JVal.obj [("value", pic)]])
    else JVal.arr [JVal.obj [("value", pic)]])
  else none

/-- The transport-error contract from the specification: if the error body
parses as JSON containing a structured `error` object, a
`ZaloAPIError(message, code)`; otherwise — including when the body is
absent, empty, or fails to parse — the generic internal-OAuth-error wrap
of the transport error. -/
def transportErrorSpec (err : TransportError) : DoneError :=
  match err.data with
  | some d =>
    match jsonParse d with
    | .ok j =>
      let ev := j.getMemberD "error"
      if ev.truthy && ev.isTypeofObject then
        DoneError.zalo (ZaloAPIError.mk' (ev.getMemberD "message") (ev.getMemberD "code"))
      else DoneError.internalOAuth "Failed to fetch user profile" err
    | .error _ => DoneError.internalOAuth "Failed to fetch user profile" err
  | none => DoneError.internalOAuth "Failed to fetch user profile" err

/-- The error-parsing contract from the amended claim, for a body that
parses as a JSON value: a structured `error` object yields
`ZaloAPIError(message, code)`, anything else delegates to the underlying
engine on the same body and status. -/
def parseErrorSpec (body : String) (status : Int) (j : JVal) : ParseErrorOutcome :=
  let ev := j.getMemberD "error"
  if ev.truthy && ev.isTypeofObject then
    ParseErrorOutcome.zalo (ZaloAPIError.mk' (ev.getMemberD "message") (ev.getMemberD "code"))
  else ParseErrorOutcome.delegated body status

/-- The authenticate contract from the amended claim: a non-empty
`error_code` parameter together with an absent-or-empty `error` parameter
short-circuits with `ZaloAPIError(error_message, parseInt(error_code))`;
every other request is delegated to the underlying engine. -/
def authenticateSpec (req : Req) : AuthOutcome :=
  match req.query with
  | none => AuthOutcome.delegated
  | some q =>
    match qget q "error_code" with
    | some ec =>
      if ec ≠ "" ∧ (qget q "error").getD "" = "" then
        AuthOutcome.errored (ZaloAPIError.mk' (jvalOfQ (qget q "error_message")) (parseIntJs ec))
      else AuthOutcome.delegated
    | none => AuthOutcome.delegated

/-! ### Helper lemmas about the JavaScript value model -/

theorem JVal.member_of_not_nullish (v : JVal) (k : String) (h : v.isNullish = false) :
    v.member k = Except.ok (v.getMemberD k) := by
  cases v <;> simp_all [JVal.isNullish, JVal.member]

theorem JVal.not_nullish_of_truthy (v : JVal) (h : v.truthy = true) :
    v.isNullish = false := by
  cases v <;> simp_all [JVal.truthy, JVal.isNullish]

theorem JVal.member_of_truthy (v : JVal) (k : String) (h : v.truthy = true) :
    v.member k = Except.ok (v.getMemberD k) :=
  v.member_of_not_nullish k (v.not_nullish_of_truthy h)

theorem JVal.getMemberD_of_falsy (v : JVal) (k : String) (h : v.truthy = false) :
    v.getMemberD k = JVal.undef := by
  cases v <;> simp_all [JVal.truthy, JVal.getMemberD]

theorem assocLast_append (l1 l2 : List (String × JVal)) (k : String) :
    assocLast (l1 ++ l2) k =
      match assocLast l2 k with
      | some w => some w
      | none => assocLast l1 k := by
  induction l1 with
  | nil => cases h2 : assocLast l2 k <;> simp [assocLast, h2]
  | cons p t ih =>
    obtain ⟨k0, v0⟩ := p
    have hstep : assocLast (((k0, v0) :: t) ++ l2) k =
        match assocLast (t ++ l2) k with
        | some w => some w
        | none => if k0 = k then some v0 else none := rfl
    rw [hstep, ih]
    cases h2 : assocLast l2 k <;> cases h1 : assocLast t k <;>
      simp [assocLast, h1, h2]

/-- On a non-nullish input, the assignment sequence of the profile
normalizer succeeds and produces exactly the four renamed fields plus the
photo attribute characterized by `photosSpec`. -/
theorem profileParseCore_eq (json : JVal) (h : json.isNullish = false) :
    profileParseCore json = Except.ok (JVal.obj (
      [("id", json.getMemberD "id"), ("displayName", json.getMemberD "name"),
       ("birthday", json.getMemberD "birthday"), ("gender", json.getMemberD "gender")]
      ++ (match photosSpec json with
          | some ph => [("photos", ph)]
          | none => []))) := by
  have hid := json.member_of_not_nullish "id" h
  have hname := json.member_of_not_nullish "name" h
  have hbd := json.member_of_not_nullish "birthday" h
  have hg := json.member_of_not_nullish "gender" h
  have hpic := json.member_of_not_nullish "picture" h
  simp only [profileParseCore, hid, hname, hbd, hg, hpic, photosSpec,
    Bind.bind, Except.bind]
  cases hpt : (json.getMemberD "picture").truthy with
  | false => simp [hpt, Pure.pure, Except.pure]
  | true =>
    cases hobj : (json.getMemberD "picture").isTypeofObject with
    | false => simp [hobj, Pure.pure, Except.pure]
    | true =>
      have hd := (json.getMemberD "picture").member_of_truthy "data" hpt
      simp only [hd, Bind.bind, Except.bind]
      cases hdt : ((json.getMemberD "picture").getMemberD "data").truthy with
      | false => simp [hdt, Pure.pure, Except.pure]
      | true =>
        have hu := ((json.getMemberD "picture").getMemberD "data").member_of_truthy
          "url" hdt
        simp [hu, Pure.pure, Except.pure]

/-- On a nullish input the normalizer throws (first property access). -/
theorem profileParseCore_nullish (json : JVal) (h : json.isNullish = true) :
    profileParseCore json = Except.error JsErr.typeErr := by
  cases json <;> simp_all [JVal.isNullish] <;> rfl

/-- A successful run of `Profile.parse` always yields an object whose keys
are among the five normalized attribute names. -/
theorem Profile.parse_shape (json p : JVal) (hp : Profile.parse json = Except.ok p) :
    ∃ kvs, p = JVal.obj kvs
      ∧ kvs.map Prod.fst ⊆ ["id", "displayName", "birthday", "gender", "photos"] := by
  have hcore : ∃ j2, profileParseCore j2 = Except.ok p := by
    cases hj0 : json with
    | str s =>
      rw [hj0] at hp
      cases hs : jsonParse s with
      | ok v => exact ⟨v, by simpa [Profile.parse, hs] using hp⟩
      | error e => rw [Profile.parse, hs] at hp; exact absurd hp (by simp)
    | _ => exact ⟨json, by rw [hj0] at hp ⊢; simpa [Profile.parse] using hp⟩
  obtain ⟨j2, hc⟩ := hcore
  cases hn : j2.isNullish with
  | true => rw [profileParseCore_nullish j2 hn] at hc; exact absurd hc (by simp)
  | false =>
    rw [profileParseCore_eq j2 hn] at hc
    injection hc with hpv
    subst hpv
    cases hph : photosSpec j2 with
    | none =>
      refine ⟨_, rfl, ?_⟩
      show ["id", "displayName", "birthday", "gender"]
          ⊆ ["id", "displayName", "birthday", "gender", "photos"]
      decide
    | some ph =>
      refine ⟨_, rfl, ?_⟩
      show ["id", "displayName", "birthday", "gender", "photos"]
          ⊆ ["id", "displayName", "birthday", "gender", "photos"]
      decide

/-- Assignment of a fresh key appends it. -/
theorem setOwn_notmem (kvs : List (String × JVal)) (k : String) (v : JVal)
    (h : ¬ k ∈ kvs.map Prod.fst) :
    (JVal.obj kvs).setOwn k v = JVal.obj (kvs ++ [(k, v)]) := by
  have ha : kvs.any (fun p => p.1 = k) = false := by
    rw [List.any_eq_false]
    intro a ha'
    simp only [decide_eq_true_eq]
    intro hk
    exact h (hk ▸ List.mem_map_of_mem Prod.fst ha')
  simp [JVal.setOwn, ha]

/-- Reading a key that only occurs in the left part of an appended object. -/
theorem assocLast_append_notmem (l1 l2 : List (String × JVal)) (k : String)
    (h : ¬ k ∈ l2.map Prod.fst) :
    assocLast (l1 ++ l2) k = assocLast l1 k := by
  have h2 : assocLast l2 k = none := by
    induction l2 with
    | nil => rfl
    | cons p t ih =>
      obtain ⟨k0, v0⟩ := p
      simp only [List.map_cons, List.mem_cons, not_or] at h
      simp [assocLast, ih h.2, h.1, Ne.symm h.1]
  rw [assocLast_append, h2]

/-- The provider/raw/json tagging of `handleSuccess` keeps the normalized
keys and appends the three auxiliary ones; reading `provider` back yields
the tagged constant. -/
theorem getOwn_tagged_provider (kvs : List (String × JVal)) (v1 v2 v3 : JVal)
    (h : kvs.map Prod.fst ⊆ ["id", "displayName", "birthday", "gender", "photos"]) :
    ((((JVal.obj kvs).setOwn "provider" v1).setOwn "_raw" v2).setOwn "_json" v3).getOwn
      "provider" = some v1 := by
  have h1 : ¬ "provider" ∈ kvs.map Prod.fst := fun hm => by
    have := h hm; simp at this
  rw [setOwn_notmem kvs "provider" v1 h1]
  have h2 : ¬ "_raw" ∈ (kvs ++ [("provider", v1)]).map Prod.fst := fun hm => by
    rw [List.map_append, List.mem_append] at hm
    rcases hm with hm | hm
    · have := h hm; simp at this
    · simp at hm
  rw [setOwn_notmem _ "_raw" v2 h2]
  have h3 : ¬ "_json" ∈ ((kvs ++ [("provider", v1)]) ++ [("_raw", v2)]).map Prod.fst :=
    fun hm => by
    rw [List.map_append, List.mem_append] at hm
    rcases hm with hm | hm
    · rw [List.map_append, List.mem_append] at hm
      rcases hm with hm | hm
      · have := h hm; simp at this
      · simp at hm
    · simp at hm
  rw [setOwn_notmem _ "_json" v3 h3]
  show assocLast _ "provider" = some v1
  rw [assocLast_append_notmem _ [("_json", v3)] _ (by simp),
    assocLast_append_notmem _ [("_raw", v2)] _ (by simp),
    assocLast_append _ [("provider", v1)] _]
  rfl

/-- The `forEach`/`push` loop of `_convertProfileFields` is a map. -/
theorem convert_foldl (fs : List String) (acc : List String) :
    fs.foldl (fun fields f =>
      match fieldMap f with
      | none => fields ++ [f]
      | some v => fields ++ [v]) acc = acc ++ fs.map translateField := by
  induction fs generalizing acc with
  | nil => simp
  | cons f t ih =>
    simp only [List.foldl_cons, List.map_cons, ih]
    cases hf : fieldMap f <;> simp [translateField, hf]

/-- A string with `fields=` spliced into it is never empty. -/
theorem append_fields_ne_empty (a c : String) : a ++ "fields=" ++ c ≠ "" := by
  intro h
  have hl := congrArg String.length h
  have h7 : ("fields=" : String).length = 7 := rfl
  have h0 : ("" : String).length = 0 := rfl
  simp only [String.length_append, h7, h0] at hl
  omega

/-- List-prefix test used to define substring containment. -/
def startsWithList : List Char → List Char → Bool
  | _, [] => true
  | [], _ :: _ => false
  | a :: as, b :: bs => a == b && startsWithList as bs

/-- Substring containment on character lists. -/
def containsSub : List Char → List Char → Bool
  | [], needle => startsWithList [] needle
  | c :: t, needle => startsWithList (c :: t) needle || containsSub t needle

/-- Substring containment on strings. -/
def strContainsSub (hay needle : String) : Bool :=
  containsSub hay.toList needle.toList

example : strContainsSub "https://h/p?fields=id" "fields=" = true := rfl
example : strContainsSub "https://graph.zalo.me/v2.0/me" "0a1b2c3d4e5f" = false := rfl

/-! ### Claim theorems -/

/-- C1: the claim states that with `enableProof` set, `userProfile`
appends the HMAC-SHA256 digest of the access token (keyed by the client
secret) to the profile-fetch URL as a query parameter.  The code computes
the digest but discards it: the constructed URL does not depend on the
HMAC function at all, and at the failing input — `enableProof` with the
default profile URL, client secret `"secret"`, access token `"token123"`
— the URL handed to the HTTP GET is the bare profile URL and does not
contain the digest (`hmacStub` returns the marker `"0a1b2c3d4e5f"`, which
a correct append would make appear). -/
theorem c1_enableProof_digest_discarded :
    (∀ (hm1 hm2 : String → String → String) (o : StrategyOptions) (tok : String),
      userProfileUrl hm1 o tok = userProfileUrl hm2 o tok)
    ∧ userProfileUrl hmacStub ⟨none, none, true, "secret"⟩ "token123" =
        "https://graph.zalo.me/v2.0/me"
    ∧ strContainsSub (userProfileUrl hmacStub ⟨none, none, true, "secret"⟩ "token123")
        (hmacStub "secret" "token123") = false := by
  refine ⟨fun hm1 hm2 o tok => rfl, rfl, rfl⟩

/-- C2 counterexample: for the raw profile `\x7bpicture: ""\x7d` the
`picture` field exists as a plain (string) value, yet the normalizer
emits no `photos` attribute at all — the empty string is falsy, so the
claimed `photos=[\x7bvalue: ""\x7d]` is not produced. -/
theorem c2_photos_plain_empty_counterexample :
    (Profile.parse (JVal.obj [("picture", JVal.str "")])).map
        (fun p => p.getOwn "photos") = Except.ok none
    ∧ (Profile.parse (JVal.obj [("picture", JVal.str "")])).map
        (fun p => p.getOwn "photos")
        ≠ Except.ok (some (JVal.arr [JVal.obj [("value", JVal.str "")]])) := by
  constructor
  · rfl
  · have h0 : (Profile.parse (JVal.obj [("picture", JVal.str "")])).map
        (fun p => p.getOwn "photos") = Except.ok none := rfl
    rw [h0]
    simp

/-- C2 (amended): for every decoded raw profile accepted by the
normalizer, the photo rule follows JavaScript truthiness — a truthy
`picture` of object type with a truthy `data` member yields
`photos=[\x7bvalue: picture.data.url\x7d]` (the `url` read may give
`undefined`); any other truthy `picture` yields
`photos=[\x7bvalue: picture\x7d]`; a falsy or absent `picture` (including
the plain string `""`) yields no `photos` attribute. -/
theorem c2_photos_rule_amended (json p : JVal) (hs : json.isStr = false)
    (hp : Profile.parse json = Except.ok p) :
    p.getOwn "photos" = photosSpec json := by
  have hcore : profileParseCore json = Except.ok p := by
    cases json <;> simp_all [Profile.parse, JVal.isStr]
  cases hn : json.isNullish with
  | true =>
    rw [profileParseCore_nullish json hn] at hcore
    exact absurd hcore (by simp)
  | false =>
    rw [profileParseCore_eq json hn] at hcore
    injection hcore with hpv
    subst hpv
    cases hph : photosSpec json with
    | none => rfl
    | some ph => rfl

/-- C2 witness: the amended photo rule evaluated at a profile whose
`picture` is the non-empty plain string `"http://img"`. -/
theorem c2_photos_rule_amended_witness :
    (JVal.obj [("id", JVal.undef), ("displayName", JVal.undef),
      ("birthday", JVal.undef), ("gender", JVal.undef),
      ("photos", JVal.arr [JVal.obj [("value", JVal.str "http://img")]])]).getOwn
        "photos"
      = photosSpec (JVal.obj [("picture", JVal.str "http://img")]) :=
  c2_photos_rule_amended (JVal.obj [("picture", JVal.str "http://img")]) _ rfl rfl

/-- C8 counterexample: the body `"null"` is well-formed JSON, so the
success-path handler gets past the guarded parse, and the normalizer's
first property access on `null` throws an uncaught TypeError — the
handler is not total over arbitrary body strings. -/
theorem c8_null_body_counterexample :
    jsonParse "null" = Except.ok JVal.null
    ∧ handleSuccess "null" = Except.error JsErr.typeErr :=
  ⟨rfl, rfl⟩

/-- C8 (amended): for every malformed (non-JSON) profile response body,
`userProfile` completes by passing the generic parse error to the
completion callback without any uncaught exception; totality over
arbitrary body strings however fails — a body parsing to JSON `null`
makes the handler throw an uncaught TypeError (see the counterexample). -/
theorem c8_malformed_body_generic_error (body : String) (e : JsErr)
    (hp : jsonParse body = Except.error e) :
    handleSuccess body = Except.ok (DoneResult.failed
      (DoneError.generic "Failed to parse user profile")) := by
  simp [handleSuccess, hp]

/-- C8 witness: the amended statement evaluated at the malformed body
consisting of a lone opening brace. -/
theorem c8_malformed_body_generic_error_witness :
    handleSuccess "\x7b" = Except.ok (DoneResult.failed
      (DoneError.generic "Failed to parse user profile")) :=
  c8_malformed_body_generic_error "\x7b" JsErr.parseFail rfl

/-- C9: for every decoded raw profile accepted by the normalizer, the
field mapping is exactly id←id, displayName←name, birthday←birthday,
gender←gender, and no key beyond these four (plus the separately ruled
`photos`) appears in the result. -/
theorem c9_field_mapping (json p : JVal) (hs : json.isStr = false)
    (hp : Profile.parse json = Except.ok p) :
    p.getOwn "id" = some (json.getMemberD "id")
    ∧ p.getOwn "displayName" = some (json.getMemberD "name")
    ∧ p.getOwn "birthday" = some (json.getMemberD "birthday")
    ∧ p.getOwn "gender" = some (json.getMemberD "gender")
    ∧ p.ownKeys ⊆ ["id", "displayName", "birthday", "gender", "photos"] := by
  have hcore : profileParseCore json = Except.ok p := by
    cases json <;> simp_all [Profile.parse, JVal.isStr]
  cases hn : json.isNullish with
  | true =>
    rw [profileParseCore_nullish json hn] at hcore
    exact absurd hcore (by simp)
  | false =>
    rw [profileParseCore_eq json hn] at hcore
    injection hcore with hpv
    subst hpv
    cases hph : photosSpec json with
    | none =>
      refine ⟨rfl, rfl, rfl, rfl, ?_⟩
      show ["id", "displayName", "birthday", "gender"]
          ⊆ ["id", "displayName", "birthday", "gender", "photos"]
      decide
    | some ph =>
      refine ⟨rfl, rfl, rfl, rfl, ?_⟩
      show ["id", "displayName", "birthday", "gender", "photos"]
          ⊆ ["id", "displayName", "birthday", "gender", "photos"]
      decide

/-- C9 witness: the field mapping evaluated at a concrete raw profile. -/
theorem c9_field_mapping_witness :
    (JVal.obj [("id", JVal.num 7 0), ("displayName", JVal.str "An"),
        ("birthday", JVal.str "01/01/2000"), ("gender", JVal.str "male")]).getOwn "id"
        = some ((JVal.obj [("id", JVal.num 7 0), ("name", JVal.str "An"),
            ("birthday", JVal.str "01/01/2000"),
            ("gender", JVal.str "male")]).getMemberD "id")
    ∧ (JVal.obj [("id", JVal.num 7 0), ("displayName", JVal.str "An"),
        ("birthday", JVal.str "01/01/2000"),
        ("gender", JVal.str "male")]).getOwn "displayName"
        = some ((JVal.obj [("id", JVal.num 7 0), ("name", JVal.str "An"),
            ("birthday", JVal.str "01/01/2000"),
            ("gender", JVal.str "male")]).getMemberD "name")
    ∧ (JVal.obj [("id", JVal.num 7 0), ("displayName", JVal.str "An"),
        ("birthday", JVal.str "01/01/2000"),
        ("gender", JVal.str "male")]).getOwn "birthday"
        = some ((JVal.obj [("id", JVal.num 7 0), ("name", JVal.str "An"),
            ("birthday", JVal.str "01/01/2000"),
            ("gender", JVal.str "male")]).getMemberD "birthday")
    ∧ (JVal.obj [("id", JVal.num 7 0), ("displayName", JVal.str "An"),
        ("birthday", JVal.str "01/01/2000"),
        ("gender", JVal.str "male")]).getOwn "gender"
        = some ((JVal.obj [("id", JVal.num 7 0), ("name", JVal.str "An"),
            ("birthday", JVal.str "01/01/2000"),
            ("gender", JVal.str "male")]).getMemberD "gender")
    ∧ (JVal.obj [("id", JVal.num 7 0), ("displayName", JVal.str "An"),
        ("birthday", JVal.str "01/01/2000"), ("gender", JVal.str "male")]).ownKeys
        ⊆ ["id", "displayName", "birthday", "gender", "photos"] :=
  c9_field_mapping
    (JVal.obj [("id", JVal.num 7 0), ("name", JVal.str "An"),
      ("birthday", JVal.str "01/01/2000"), ("gender", JVal.str "male")]) _ rfl rfl

/-- C7: every profile that `userProfile` completes with carries the fixed
constant `"facebook"` in its `provider` field, and that constant differs
from the strategy's own name `"zalo"` set by the constructor. -/
theorem c7_provider_constant_mismatch (body : String) (p : JVal)
    (hp : handleSuccess body = Except.ok (DoneResult.profile p)) :
    p.getOwn "provider" = some (JVal.str "facebook")
    ∧ Strategy.strategyName = "zalo"
    ∧ p.getOwn "provider" ≠ some (JVal.str Strategy.strategyName) := by
  have hprov : p.getOwn "provider" = some (JVal.str "facebook") := by
    cases hj : jsonParse body with
    | error e => simp [handleSuccess, hj] at hp
    | ok json =>
      cases hpp : Profile.parse json with
      | error e => simp [handleSuccess, hj, hpp, Bind.bind, Except.bind] at hp
      | ok q =>
        obtain ⟨kvs, hq, hsub⟩ := Profile.parse_shape json q hpp
        subst hq
        simp only [handleSuccess, hj, hpp, Bind.bind, Except.bind, Pure.pure,
          Except.pure, Except.ok.injEq, DoneResult.profile.injEq] at hp
        rw [← hp]
        exact getOwn_tagged_provider kvs (JVal.str "facebook") (JVal.str body) json hsub
  refine ⟨hprov, rfl, ?_⟩
  rw [hprov]
  intro h
  injection h with h1
  injection h1 with h2
  exact absurd h2 (by decide)

/-- C7 witness: the provider constant of the profile produced for the
response body consisting of an empty JSON object. -/
theorem c7_provider_constant_mismatch_witness :
    (JVal.obj [("id", JVal.undef), ("displayName", JVal.undef),
      ("birthday", JVal.undef), ("gender", JVal.undef),
      ("provider", JVal.str "facebook"), ("_raw", JVal.str "\x7b\x7d"),
      ("_json", JVal.obj [])]).getOwn "provider" = some (JVal.str "facebook")
    ∧ Strategy.strategyName = "zalo"
    ∧ (JVal.obj [("id", JVal.undef), ("displayName", JVal.undef),
      ("birthday", JVal.undef), ("gender", JVal.undef),
      ("provider", JVal.str "facebook"), ("_raw", JVal.str "\x7b\x7d"),
      ("_json", JVal.obj [])]).getOwn "provider"
      ≠ some (JVal.str Strategy.strategyName) :=
  c7_provider_constant_mismatch "\x7b\x7d" _ rfl

/-- C4: for every transport error of the profile fetch, the completion
callback receives exactly one error, and it is the one the specification
prescribes: a `ZaloAPIError(message, code)` when the error body parses as
JSON containing a structured `error` object, and the generic
internal-OAuth-error wrap of the transport error otherwise — a JSON parse
failure of the error body in particular falls through to the generic
wrap. -/
theorem c4_transport_error_contract (err : TransportError) :
    handleTransportError err = Except.ok (transportErrorSpec err) := by
  obtain ⟨dOpt⟩ := err
  cases dOpt with
  | none => rfl
  | some d =>
    by_cases hde : d = ""
    · subst hde; rfl
    · have hT : (d != "") = true := by simp [hde]
      cases hj : jsonParse d with
      | error e =>
        simp [handleTransportError, transportErrorSpec, hT, hj, JVal.truthy,
          Pure.pure, Except.pure]
      | ok j =>
        cases ht : j.truthy with
        | false =>
          have hgm : j.getMemberD "error" = JVal.undef := j.getMemberD_of_falsy "error" ht
          have hu1 : JVal.undef.truthy = false := rfl
          have hu2 : JVal.undef.isTypeofObject = false := rfl
          simp [handleTransportError, transportErrorSpec, hT, hj, ht, hgm, hu1, hu2,
            Pure.pure, Except.pure]
        | true =>
          have hm := j.member_of_truthy "error" ht
          cases hc : ((j.getMemberD "error").truthy
              && (j.getMemberD "error").isTypeofObject) with
          | false =>
            simp [handleTransportError, transportErrorSpec, hT, hj, ht, hm, hc,
              Bind.bind, Except.bind, Pure.pure, Except.pure]
          | true =>
            have hevt : (j.getMemberD "error").truthy = true := by
              have hc2 := hc
              rw [Bool.and_eq_true] at hc2
              exact hc2.1
            have hm2 := (j.getMemberD "error").member_of_truthy "message" hevt
            have hc2 := (j.getMemberD "error").member_of_truthy "code" hevt
            simp [handleTransportError, transportErrorSpec, hT, hj, ht, hm, hc,
              hm2, hc2, Bind.bind, Except.bind, Pure.pure, Except.pure]

/-- C5 counterexample: for the body `"not json"` (paired with status 400)
`parseErrorResponse` does not return the underlying engine's default
result — `JSON.parse` runs outside any try/catch and its SyntaxError
propagates, so the method throws instead of returning. -/
theorem c5_invalid_json_throws_counterexample :
    Strategy.parseErrorResponse "not json" 400 = Except.error JsErr.parseFail
    ∧ ∀ z, Strategy.parseErrorResponse "not json" 400 ≠ Except.ok z := by
  refine ⟨rfl, fun z h => ?_⟩
  rw [show Strategy.parseErrorResponse "not json" 400
    = Except.error JsErr.parseFail from rfl] at h
  exact absurd h (by simp)

/-- C5 (amended): for every body that parses as JSON to a non-nullish
value, `parseErrorResponse` returns a `ZaloAPIError(message, code)` when
the value contains a structured `error` object and otherwise the
underlying engine's default behaviour on the same body and status; a body
that does not parse (or parses to `null`) makes the method throw instead
of returning. -/
theorem c5_parse_error_response_amended (body : String) (status : Int) (j : JVal)
    (hj : jsonParse body = Except.ok j) (hnn : j.isNullish = false) :
    Strategy.parseErrorResponse body status =
      Except.ok (parseErrorSpec body status j) := by
  have hm := j.member_of_not_nullish "error" hnn
  simp only [Strategy.parseErrorResponse, hj, hm, Bind.bind, Except.bind,
    parseErrorSpec]
  cases hc : ((j.getMemberD "error").truthy && (j.getMemberD "error").isTypeofObject) with
  | false => simp [hc, Pure.pure, Except.pure]
  | true =>
    have hevt : (j.getMemberD "error").truthy = true := by
      have hc2 := hc
      rw [Bool.and_eq_true] at hc2
      exact hc2.1
    have h1 := (j.getMemberD "error").member_of_truthy "message" hevt
    have h2 := (j.getMemberD "error").member_of_truthy "code" hevt
    simp [hc, h1, h2, Bind.bind, Except.bind, Pure.pure, Except.pure]

/-- C5 witness: the amended statement evaluated at the specification's
example body carrying a structured error with message `"Invalid token"`
and code 190. -/
theorem c5_parse_error_response_amended_witness :
    Strategy.parseErrorResponse
        "\x7b\"error\":\x7b\"message\":\"Invalid token\",\"code\":190\x7d\x7d" 400 =
      Except.ok (parseErrorSpec
        "\x7b\"error\":\x7b\"message\":\"Invalid token\",\"code\":190\x7d\x7d" 400
        (JVal.obj [("error", JVal.obj [("message", JVal.str "Invalid token"),
          ("code", JVal.num 190 0)])])) :=
  c5_parse_error_response_amended
    "\x7b\"error\":\x7b\"message\":\"Invalid token\",\"code\":190\x7d\x7d" 400
    (JVal.obj [("error", JVal.obj [("message", JVal.str "Invalid token"),
      ("code", JVal.num 190 0)])]) rfl rfl

/-- C3 counterexample: the query `error_code=` (parameter present with
empty value) contains an `error_code` parameter and no `error` parameter,
yet `authenticate` delegates to the underlying engine instead of failing
with a ProviderError — the code tests JavaScript truthiness, not
presence. -/
theorem c3_empty_error_code_counterexample :
    Strategy.authenticate ⟨some [("error_code", "")]⟩ = AuthOutcome.delegated
    ∧ ∀ e, Strategy.authenticate ⟨some [("error_code", "")]⟩ ≠ AuthOutcome.errored e := by
  refine ⟨rfl, fun e h => ?_⟩
  rw [show Strategy.authenticate ⟨some [("error_code", "")]⟩
    = AuthOutcome.delegated from rfl] at h
  exact absurd h (by simp)

/-- C3 (amended): `authenticate` short-circuits with
`ZaloAPIError(error_message, parseInt(error_code, 10))` exactly when the
query carries a non-empty `error_code` and an absent-or-empty `error`
parameter, and delegates to the underlying OAuth2 engine in every other
case; in particular `error_code=190` without an `error` parameter yields
the error outcome with code 190 and no delegation. -/
theorem c3_authenticate_amended :
    (∀ req : Req, Strategy.authenticate req = authenticateSpec req)
    ∧ Strategy.authenticate ⟨some [("error_code", "190")]⟩ =
        AuthOutcome.errored (ZaloAPIError.mk' JVal.undef (JVal.num 190 0)) := by
  constructor
  · intro req
    obtain ⟨qOpt⟩ := req
    cases qOpt with
    | none => rfl
    | some q =>
      simp only [Strategy.authenticate, authenticateSpec]
      cases hec : qget q "error_code" with
      | none => simp [strTruthy, hec]
      | some ec =>
        cases her : qget q "error" with
        | none => by_cases hce : ec = "" <;> simp [strTruthy, hec, her, hce]
        | some er =>
          by_cases hce : ec = "" <;> by_cases hre : er = "" <;>
            simp [strTruthy, hec, her, hce, hre]
  · rfl

/-- C6 counterexample: the allow-list `[""]` is a non-empty list, yet its
translation joins to the empty string and `userProfile` appends no
`fields` query parameter at all — the constructed URL is the bare profile
URL. -/
theorem c6_blank_field_list_counterexample :
    Strategy.convertProfileFields [""] = ""
    ∧ userProfileUrl hmacStub ⟨none, some [""], false, "s"⟩ "t" =
        "https://graph.zalo.me/v2.0/me"
    ∧ strContainsSub (userProfileUrl hmacStub ⟨none, some [""], false, "s"⟩ "t")
        "fields=" = false :=
  ⟨rfl, rfl, rfl⟩

/-- Formatting a URL object whose search component ends in an appended
`fields=` assignment yields a URL with that assignment as a suffix. -/
theorem uriFormat_append_exists (b : String) (qy : Option String) (a c : String) :
    ∃ pre, uriFormat ⟨b, some (a ++ "fields=" ++ c), qy⟩ = pre ++ "fields=" ++ c := by
  have hs2 : ((a ++ "fields=" ++ c) != "") = true := by
    simp only [bne_iff_ne, ne_eq]
    exact append_fields_ne_empty a c
  simp only [uriFormat, strTruthy, hs2, if_true]
  cases hqn : firstIsQn (a ++ "fields=" ++ c) with
  | true => exact ⟨b ++ a, by simp [hqn, String.append_assoc]⟩
  | false => exact ⟨b ++ ("?" ++ a), by simp [hqn, String.append_assoc]⟩

/-- C6 (amended): `_convertProfileFields` translates each requested name
through the fixed table (id→id, displayName→name, gender→gender,
birthday→birthday, photos→picture, unmapped names passing through raw)
and joins the translations with commas; whenever the join is non-empty —
which a non-empty allow-list such as `[""]` need not produce — the result
is appended to the profile-fetch URL as a `fields` query parameter.  In
particular `["id", "displayName", "unknownField"]` produces
`"id,name,unknownField"`. -/
theorem c6_fields_translation_amended :
    (∀ fs : List String, Strategy.convertProfileFields fs =
      String.intercalate "," (fs.map translateField))
    ∧ (∀ (hm : String → String → String) (o : StrategyOptions) (tok : String)
        (fs : List String), o.profileFields = some fs →
        Strategy.convertProfileFields fs ≠ "" →
        ∃ pre, userProfileUrl hm o tok =
          pre ++ "fields=" ++ Strategy.convertProfileFields fs)
    ∧ Strategy.convertProfileFields ["id", "displayName", "unknownField"] =
        "id,name,unknownField" := by
  refine ⟨?_, ?_, rfl⟩
  · intro fs
    rw [Strategy.convertProfileFields, convert_foldl fs []]
    rfl
  · intro hm o tok fs hpf hne
    obtain ⟨pu, pf, ep, cs⟩ := o
    simp only at hpf
    subst hpf
    have hbne : (Strategy.convertProfileFields fs != "") = true := by
      simp [bne_iff_ne, hne]
    simp only [userProfileUrl, hbne, if_true]
    apply uriFormat_append_exists

/-- C6 witness: the amended statement evaluated at the allow-list from
the specification's example. -/
theorem c6_fields_translation_amended_witness :
    ∃ pre, userProfileUrl hmacStub
        ⟨none, some ["id", "displayName", "unknownField"], false, "s"⟩ "t" =
      pre ++ "fields="
        ++ Strategy.convertProfileFields ["id", "displayName", "unknownField"] :=
  c6_fields_translation_amended.2.1 hmacStub
    ⟨none, some ["id", "displayName", "unknownField"], false, "s"⟩ "t"
    ["id", "displayName", "unknownField"] rfl (by decide)

/-- C10: whenever a configured allow-list translates to the empty string
(the empty list does, and so does any list of blank names), `userProfile`
appends no `fields` parameter, and the constructed profile-fetch URL is
the one an allow-list-free configuration produces. -/
theorem c10_empty_translation_no_fields_param (hm : String → String → String)
    (o : StrategyOptions) (tok : String) (fs : List String)
    (hpf : o.profileFields = some fs)
    (hcv : Strategy.convertProfileFields fs = "") :
    userProfileUrl hm o tok =
      userProfileUrl hm
        (StrategyOptions.mk o.profileURL none o.enableProof o.clientSecret) tok := by
  obtain ⟨pu, pf, ep, cs⟩ := o
  simp only at hpf
  subst hpf
  simp [userProfileUrl, Strategy.profileURL, hcv]

/-- C10 witness: the empty allow-list produces the same URL as no
allow-list. -/
theorem c10_empty_translation_no_fields_param_witness :
    userProfileUrl hmacStub ⟨none, some [], false, "s"⟩ "t" =
      userProfileUrl hmacStub ⟨none, none, false, "s"⟩ "t" :=
  c10_empty_translation_no_fields_param hmacStub ⟨none, some [], false, "s"⟩ "t" [] rfl rfl
